import Mathlib

/-!
Shallow embedding of the EncryptedSurvey contract
(src/contracts/EncryptedSurvey.sol) from the private-vote-glow repository.

Addresses are modelled as natural numbers (0 plays the role of the zero
address).  The euint32 accumulator of each option is modelled by its
32-bit numeric value; the external FHE capability is modelled at its
interface boundary as the spec directs for out-of-scope collaborators:
homomorphic addition is addition modulo 2^32, proof validation is a
boolean parameter of the call, and the decrypt-access control list is the
monotonic relation (option index, grantee) described in the spec data
model.  Each external contract function becomes a Lean function from a
state to Except SurveyError state; a revert returns the error and (at the
transition level, applyOp) leaves the state unchanged, matching the
all-or-nothing semantics of the EVM.
-/

namespace EncryptedSurvey

/-- Caller identities: wallet addresses, with 0 the zero address. -/
abbrev Address := Nat

/-- The zero address, address(0) in the source. -/
def addressZero : Address := 0

/-- Modulus of the euint32 accumulator value space. -/
def UINT32_MOD : Nat := 4294967296

/-- Homomorphic addition on the modelled accumulator values. -/
def fheAdd (a b : Nat) : Nat := (a + b) % UINT32_MOD

/-- Mirrors struct SurveyOption: a label and an encrypted total. -/
structure SurveyOption where
  label : String
  encryptedTotal : Nat
  deriving Repr, DecidableEq

/-- Default option used for out-of-range reads; never observed because all
reads are bounds-checked first, as in the source. -/
def dummyOption : SurveyOption := { label := "", encryptedTotal := 0 }

/-- The five declared custom errors of the contract, plus InvalidProof for
the revert raised inside the external FHE.fromExternal capability. -/
inductive SurveyError where
  | SurveyNotConfigured
  | AlreadyVoted
  | InvalidOption
  | NotOwner
  | SurveyClosed
  | InvalidProof
  deriving Repr, DecidableEq

/-- The five events declared by the contract. -/
inductive Event where
  | SurveyConfigured (question : String) (options : List String)
  | VoteSubmitted (voter : Address) (optionIndex : Nat)
  | SurveyFinalized (sender : Address)
  | ResultAccessGranted (grantee : Address) (optionIndex : Nat)
  | SelfAccessGranted (user : Address) (optionIndex : Nat)
  deriving Repr, DecidableEq

/-- The full contract storage, the FHE access-control relation (grants),
the FHE allow-this set, and the emitted event log. -/
structure SurveyState where
  owner : Address
  surveyCreator : Address
  surveyQuestion : String
  options : List SurveyOption
  isConfigured : Bool
  isFinalized : Bool
  hasVoted : Address → Bool
  optionHasVotes : Nat → Bool
  grants : Nat → Address → Bool
  allowedThis : Nat → Bool
  events : List Event

/-- State of a fresh deployment by the given owner (the constructor). -/
def initState (owner : Address) : SurveyState where
  owner := owner
  surveyCreator := addressZero
  surveyQuestion := ""
  options := []
  isConfigured := false
  isFinalized := false
  hasVoted := fun _ => false
  optionHasVotes := fun _ => false
  grants := fun _ _ => false
  allowedThis := fun _ => false
  events := []

/-- Mirrors configureSurvey (lines 62-80 of the source). -/
def configureSurvey (s : SurveyState) (sender : Address) (question : String)
    (optionLabels : List String) : Except SurveyError SurveyState :=
  if s.isConfigured then .error .SurveyClosed
  else if optionLabels.length < 2 then .error .InvalidOption
  else .ok { s with
    surveyQuestion := question
    surveyCreator := sender
    options := optionLabels.map (fun l => { label := l, encryptedTotal := 0 })
    isConfigured := true
    isFinalized := false
    events := s.events ++ [.SurveyConfigured question optionLabels] }

/-- Mirrors submitVote (lines 86-111 of the source).  The external
encrypted input is its 32-bit value together with the validity of its
proof; FHE.fromExternal reverts with InvalidProof on an invalid proof. -/
def submitVote (s : SurveyState) (sender : Address) (optionIndex : Nat)
    (encryptedVote : Nat) (proofValid : Bool) : Except SurveyError SurveyState :=
  if s.isConfigured = false then .error .SurveyNotConfigured
  else if s.isFinalized then .error .SurveyClosed
  else if s.hasVoted sender then .error .AlreadyVoted
  else if optionIndex ≥ s.options.length then .error .InvalidOption
  else if proofValid = false then .error .InvalidProof
  else
    let opt := s.options.getD optionIndex dummyOption
    let newTotal := fheAdd opt.encryptedTotal (encryptedVote % UINT32_MOD)
    .ok { s with
      options := s.options.set optionIndex { opt with encryptedTotal := newTotal }
      optionHasVotes := fun i => if i = optionIndex then true else s.optionHasVotes i
      hasVoted := fun a => if a = sender then true else s.hasVoted a
      allowedThis := fun i => if i = optionIndex then true else s.allowedThis i
      grants := fun i a =>
        if i = optionIndex ∧
            (a = s.owner ∨ (s.surveyCreator ≠ addressZero ∧ a = s.surveyCreator))
        then true else s.grants i a
      events := s.events ++ [.VoteSubmitted sender optionIndex] }

/-- Mirrors finalizeSurvey (lines 114-121 of the source). -/
def finalizeSurvey (s : SurveyState) (sender : Address) :
    Except SurveyError SurveyState :=
  if s.isConfigured = false then .error .SurveyNotConfigured
  else if s.isFinalized then .error .SurveyClosed
  else .ok { s with
    isFinalized := true
    events := s.events ++ [.SurveyFinalized sender] }

/-- Mirrors allowResultFor (lines 126-134 of the source). -/
def allowResultFor (s : SurveyState) (_sender grantee : Address)
    (optionIndex : Nat) : Except SurveyError SurveyState :=
  if s.isConfigured = false then .error .SurveyNotConfigured
  else if optionIndex ≥ s.options.length then .error .InvalidOption
  else if s.optionHasVotes optionIndex = false then .error .SurveyNotConfigured
  else .ok { s with
    grants := fun i a => if i = optionIndex ∧ a = grantee then true else s.grants i a
    events := s.events ++ [.ResultAccessGranted grantee optionIndex] }

/-- Mirrors allowResultForSelf (lines 138-146 of the source). -/
def allowResultForSelf (s : SurveyState) (sender : Address)
    (optionIndex : Nat) : Except SurveyError SurveyState :=
  if s.isConfigured = false then .error .SurveyNotConfigured
  else if optionIndex ≥ s.options.length then .error .InvalidOption
  else if s.optionHasVotes optionIndex = false then .error .SurveyNotConfigured
  else .ok { s with
    grants := fun i a => if i = optionIndex ∧ a = sender then true else s.grants i a
    events := s.events ++ [.SelfAccessGranted sender optionIndex] }

/-- Body of the loop of allowAllResultsForSelf: for each index with votes,
grant to the caller and emit one event; the hasVotes storage read is the
snapshot of optionHasVotes, which the loop body never modifies. -/
def grantAllStep (sender : Address) (hv : Nat → Bool)
    (acc : SurveyState × Bool) (i : Nat) : SurveyState × Bool :=
  if hv i then
    ({ acc.1 with
        grants := fun j a => if j = i ∧ a = sender then true else acc.1.grants j a
        events := acc.1.events ++ [.SelfAccessGranted sender i] }, true)
  else acc

/-- Mirrors allowAllResultsForSelf (lines 149-162 of the source). -/
def allowAllResultsForSelf (s : SurveyState) (sender : Address) :
    Except SurveyError SurveyState :=
  if s.isConfigured = false then .error .SurveyNotConfigured
  else
    let res := (List.range s.options.length).foldl
      (grantAllStep sender s.optionHasVotes) (s, false)
    if res.2 = false then .error .SurveyNotConfigured
    else .ok res.1

/-- Mirrors getOptionLabels (lines 166-173 of the source). -/
def getOptionLabels (s : SurveyState) : Except SurveyError (List String) :=
  if s.isConfigured = false then .error .SurveyNotConfigured
  else .ok (s.options.map (fun o => o.label))

/-- Mirrors getEncryptedTotal (lines 178-183 of the source). -/
def getEncryptedTotal (s : SurveyState) (optionIndex : Nat) :
    Except SurveyError Nat :=
  if s.isConfigured = false then .error .SurveyNotConfigured
  else if optionIndex ≥ s.options.length then .error .InvalidOption
  else .ok (s.options.getD optionIndex dummyOption).encryptedTotal

/-- Mirrors optionCount (lines 187-190 of the source). -/
def optionCount (s : SurveyState) : Except SurveyError Nat :=
  if s.isConfigured = false then .error .SurveyNotConfigured
  else .ok s.options.length

/-- Mirrors hasVoterSubmitted (lines 195-197 of the source); a view with
no precondition, it never reverts. -/
def hasVoterSubmitted (s : SurveyState) (voter : Address) : Bool :=
  s.hasVoted voter

/-- One invocation of a state-changing external function, with its caller. -/
inductive Op where
  | configure (sender : Address) (question : String) (optionLabels : List String)
  | submit (sender : Address) (optionIndex : Nat) (encryptedVote : Nat) (proofValid : Bool)
  | finalize (sender : Address)
  | grantFor (sender : Address) (grantee : Address) (optionIndex : Nat)
  | grantSelf (sender : Address) (optionIndex : Nat)
  | grantAllSelf (sender : Address)

/-- Outcome of one transaction against a state. -/
def stepResult (s : SurveyState) : Op → Except SurveyError SurveyState
  | .configure sender q labels => configureSurvey s sender q labels
  | .submit sender idx ev p => submitVote s sender idx ev p
  | .finalize sender => finalizeSurvey s sender
  | .grantFor sender grantee idx => allowResultFor s sender grantee idx
  | .grantSelf sender idx => allowResultForSelf s sender idx
  | .grantAllSelf sender => allowAllResultsForSelf s sender

/-- A transaction commits on success and leaves state untouched on revert. -/
def applyOp (s : SurveyState) (op : Op) : SurveyState :=
  match stepResult s op with
  | .ok s2 => s2
  | .error _ => s

/-- Serialized execution of a sequence of transactions. -/
def runOps (s : SurveyState) (ops : List Op) : SurveyState :=
  ops.foldl applyOp s

/-- A state is reachable when some transaction sequence produces it from a
fresh deployment by the given owner. -/
def Reachable (owner : Address) (s : SurveyState) : Prop :=
  ∃ ops, runOps (initState owner) ops = s

/-- Fixture: owner 100 deployed, then identity 7 configured two options. -/
def cfgState : SurveyState :=
  runOps (initState 100) [.configure 7 "Q" ["A", "B"]]

/-- Fixture: cfgState after identity 2 voted for option 0. -/
def votedState : SurveyState :=
  runOps cfgState [.submit 2 0 1 true]

/-- Fixture: votedState after identity 3 finalized the survey. -/
def finState : SurveyState :=
  runOps votedState [.finalize 3]

/-- The inductive invariant of the contract state: a configured survey has
at least two options, finalization implies configuration, and an option
can only have votes once the survey is configured. -/
def Inv (s : SurveyState) : Prop :=
  (s.isConfigured = true → 2 ≤ s.options.length) ∧
  (s.isFinalized = true → s.isConfigured = true) ∧
  (∀ i, s.optionHasVotes i = true → s.isConfigured = true)

/-- Whether the outcome of an operation is a revert with NotOwner. -/
def raisesNotOwner {α : Type} : Except SurveyError α → Bool
  | .error .NotOwner => true
  | _ => false

theorem getD_set_self {α : Type} :
    ∀ (l : List α) (i : Nat) (x d : α), i < l.length → (l.set i x).getD i d = x := by
  intro l
  induction l with
  | nil => intro i x d h; simp at h
  | cons hd tl ih =>
    intro i x d h
    cases i with
    | zero => rfl
    | succ n =>
      have : n < tl.length := by simpa using h
      simpa [List.getD, List.set] using ih n x d this

theorem getD_set_ne {α : Type} :
    ∀ (l : List α) (i j : Nat) (x d : α), j ≠ i → (l.set i x).getD j d = l.getD j d := by
  intro l
  induction l with
  | nil => intro i j x d _; simp [List.set]
  | cons hd tl ih =>
    intro i j x d h
    cases i with
    | zero =>
      cases j with
      | zero => exact absurd rfl h
      | succ m => simp [List.getD, List.set]
    | succ n =>
      cases j with
      | zero => simp [List.getD, List.set]
      | succ m =>
        have : m ≠ n := fun he => h (by rw [he])
        simpa [List.getD, List.set] using ih n m x d this

theorem configureSurvey_ok {s : SurveyState} {sender : Address} {q : String}
    {labels : List String} {s2 : SurveyState}
    (h : configureSurvey s sender q labels = .ok s2) :
    s.isConfigured = false ∧ 2 ≤ labels.length ∧
    s2 = { s with
      surveyQuestion := q
      surveyCreator := sender
      options := labels.map (fun l => { label := l, encryptedTotal := 0 })
      isConfigured := true
      isFinalized := false
      events := s.events ++ [.SurveyConfigured q labels] } := by
  unfold configureSurvey at h
  split at h
  · exact absurd h (by simp)
  · split at h
    · exact absurd h (by simp)
    · rename_i h1 h2
      refine ⟨by simpa using h1, by omega, ?_⟩
      exact ((Except.ok.injEq _ _).mp h).symm

theorem submitVote_ok {s : SurveyState} {sender : Address} {idx ev : Nat}
    {p : Bool} {s2 : SurveyState}
    (h : submitVote s sender idx ev p = .ok s2) :
    s.isConfigured = true ∧ s.isFinalized = false ∧ s.hasVoted sender = false ∧
    idx < s.options.length ∧ p = true ∧
    s2 = { s with
      options := s.options.set idx
        { s.options.getD idx dummyOption with
          encryptedTotal :=
            fheAdd (s.options.getD idx dummyOption).encryptedTotal (ev % UINT32_MOD) }
      optionHasVotes := fun i => if i = idx then true else s.optionHasVotes i
      hasVoted := fun a => if a = sender then true else s.hasVoted a
      allowedThis := fun i => if i = idx then true else s.allowedThis i
      grants := fun i a =>
        if i = idx ∧ (a = s.owner ∨ (s.surveyCreator ≠ addressZero ∧ a = s.surveyCreator))
        then true else s.grants i a
      events := s.events ++ [.VoteSubmitted sender idx] } := by
  unfold submitVote at h
  split at h
  · exact absurd h (by simp)
  · split at h
    · exact absurd h (by simp)
    · split at h
      · exact absurd h (by simp)
      · split at h
        · exact absurd h (by simp)
        · split at h
          · exact absurd h (by simp)
          · rename_i h1 h2 h3 h4 h5
            refine ⟨by simpa using h1, by simpa using h2, by simpa using h3,
              by omega, by simpa using h5, ?_⟩
            exact ((Except.ok.injEq _ _).mp h).symm

theorem finalizeSurvey_ok {s : SurveyState} {sender : Address} {s2 : SurveyState}
    (h : finalizeSurvey s sender = .ok s2) :
    s.isConfigured = true ∧ s.isFinalized = false ∧
    s2 = { s with
      isFinalized := true
      events := s.events ++ [.SurveyFinalized sender] } := by
  unfold finalizeSurvey at h
  split at h
  · exact absurd h (by simp)
  · split at h
    · exact absurd h (by simp)
    · rename_i h1 h2
      refine ⟨by simpa using h1, by simpa using h2, ?_⟩
      exact ((Except.ok.injEq _ _).mp h).symm

theorem allowResultFor_ok {s : SurveyState} {sender grantee : Address}
    {idx : Nat} {s2 : SurveyState}
    (h : allowResultFor s sender grantee idx = .ok s2) :
    s.isConfigured = true ∧ idx < s.options.length ∧
    s.optionHasVotes idx = true ∧
    s2 = { s with
      grants := fun i a => if i = idx ∧ a = grantee then true else s.grants i a
      events := s.events ++ [.ResultAccessGranted grantee idx] } := by
  unfold allowResultFor at h
  split at h
  · exact absurd h (by simp)
  · split at h
    · exact absurd h (by simp)
    · split at h
      · exact absurd h (by simp)
      · rename_i h1 h2 h3
        refine ⟨by simpa using h1, by omega, by simpa using h3, ?_⟩
        exact ((Except.ok.injEq _ _).mp h).symm

theorem allowResultForSelf_ok {s : SurveyState} {sender : Address}
    {idx : Nat} {s2 : SurveyState}
    (h : allowResultForSelf s sender idx = .ok s2) :
    s.isConfigured = true ∧ idx < s.options.length ∧
    s.optionHasVotes idx = true ∧
    s2 = { s with
      grants := fun i a => if i = idx ∧ a = sender then true else s.grants i a
      events := s.events ++ [.SelfAccessGranted sender idx] } := by
  unfold allowResultForSelf at h
  split at h
  · exact absurd h (by simp)
  · split at h
    · exact absurd h (by simp)
    · split at h
      · exact absurd h (by simp)
      · rename_i h1 h2 h3
        refine ⟨by simpa using h1, by omega, by simpa using h3, ?_⟩
        exact ((Except.ok.injEq _ _).mp h).symm

theorem grantAll_foldl_snd (sender : Address) (hv : Nat → Bool) :
    ∀ (L : List Nat) (t : SurveyState) (b : Bool),
      (L.foldl (grantAllStep sender hv) (t, b)).2 = (b || L.any (fun i => hv i)) := by
  intro L
  induction L with
  | nil => intro t b; simp
  | cons x xs ih =>
    intro t b
    rw [List.foldl_cons]
    cases hx : hv x
    · rw [show grantAllStep sender hv (t, b) x = (t, b) from by simp [grantAllStep, hx]]
      simp [ih, hx]
    · rw [show grantAllStep sender hv (t, b) x =
        ({ t with
            grants := fun j a => if j = x ∧ a = sender then true else t.grants j a
            events := t.events ++ [.SelfAccessGranted sender x] }, true) from by
          simp [grantAllStep, hx]]
      simp [ih, hx]

theorem grantAll_foldl_fields (sender : Address) (hv : Nat → Bool) :
    ∀ (L : List Nat) (t : SurveyState) (b : Bool),
      ((L.foldl (grantAllStep sender hv) (t, b)).1).options = t.options ∧
      ((L.foldl (grantAllStep sender hv) (t, b)).1).isConfigured = t.isConfigured ∧
      ((L.foldl (grantAllStep sender hv) (t, b)).1).isFinalized = t.isFinalized ∧
      ((L.foldl (grantAllStep sender hv) (t, b)).1).hasVoted = t.hasVoted ∧
      ((L.foldl (grantAllStep sender hv) (t, b)).1).optionHasVotes = t.optionHasVotes ∧
      ((L.foldl (grantAllStep sender hv) (t, b)).1).owner = t.owner ∧
      ((L.foldl (grantAllStep sender hv) (t, b)).1).surveyCreator = t.surveyCreator ∧
      ((L.foldl (grantAllStep sender hv) (t, b)).1).surveyQuestion = t.surveyQuestion ∧
      ((L.foldl (grantAllStep sender hv) (t, b)).1).allowedThis = t.allowedThis := by
  intro L
  induction L with
  | nil => intro t b; simp
  | cons x xs ih =>
    intro t b
    rw [List.foldl_cons]
    cases hx : hv x
    · rw [show grantAllStep sender hv (t, b) x = (t, b) from by simp [grantAllStep, hx]]
      exact ih t b
    · rw [show grantAllStep sender hv (t, b) x =
        ({ t with
            grants := fun j a => if j = x ∧ a = sender then true else t.grants j a
            events := t.events ++ [.SelfAccessGranted sender x] }, true) from by
          simp [grantAllStep, hx]]
      simpa using ih _ true

theorem grantAll_foldl_grants (sender : Address) (hv : Nat → Bool) :
    ∀ (L : List Nat) (t : SurveyState) (b : Bool) (j : Nat) (a : Address),
      (((L.foldl (grantAllStep sender hv) (t, b)).1).grants j a = true ↔
        (t.grants j a = true ∨ (a = sender ∧ j ∈ L ∧ hv j = true))) := by
  intro L
  induction L with
  | nil => intro t b j a; simp
  | cons x xs ih =>
    intro t b j a
    rw [List.foldl_cons]
    cases hx : hv x
    · rw [show grantAllStep sender hv (t, b) x = (t, b) from by simp [grantAllStep, hx]]
      rw [ih]
      constructor
      · rintro (h | ⟨ha, hm, hj⟩)
        · exact Or.inl h
        · exact Or.inr ⟨ha, List.mem_cons_of_mem _ hm, hj⟩
      · rintro (h | ⟨ha, hm, hj⟩)
        · exact Or.inl h
        · rcases List.mem_cons.mp hm with rfl | hm2
          · rw [hj] at hx; cases hx
          · exact Or.inr ⟨ha, hm2, hj⟩
    · rw [show grantAllStep sender hv (t, b) x =
        ({ t with
            grants := fun j a => if j = x ∧ a = sender then true else t.grants j a
            events := t.events ++ [.SelfAccessGranted sender x] }, true) from by
          simp [grantAllStep, hx]]
      rw [ih]
      constructor
      · rintro (h | ⟨ha, hm, hj⟩)
        · by_cases hja : j = x ∧ a = sender
          · exact Or.inr ⟨hja.2, by simp [List.mem_cons, hja.1], by rw [hja.1, hx]⟩
          · left; simpa [hja] using h
        · exact Or.inr ⟨ha, List.mem_cons_of_mem _ hm, hj⟩
      · rintro (h | ⟨ha, hm, hj⟩)
        · left
          by_cases hja : j = x ∧ a = sender
          · simp [hja]
          · simpa [hja] using h
        · rcases List.mem_cons.mp hm with rfl | hm2
          · left; simp [ha]
          · exact Or.inr ⟨ha, hm2, hj⟩

theorem grantAll_foldl_events (sender : Address) (hv : Nat → Bool) :
    ∀ (L : List Nat) (t : SurveyState) (b : Bool),
      ((L.foldl (grantAllStep sender hv) (t, b)).1).events =
        t.events ++ (L.filter (fun i => hv i)).map
          (fun i => Event.SelfAccessGranted sender i) := by
  intro L
  induction L with
  | nil => intro t b; simp
  | cons x xs ih =>
    intro t b
    rw [List.foldl_cons]
    cases hx : hv x
    · rw [show grantAllStep sender hv (t, b) x = (t, b) from by simp [grantAllStep, hx]]
      simp [ih, hx, List.filter_cons]
    · rw [show grantAllStep sender hv (t, b) x =
        ({ t with
            grants := fun j a => if j = x ∧ a = sender then true else t.grants j a
            events := t.events ++ [.SelfAccessGranted sender x] }, true) from by
          simp [grantAllStep, hx]]
      simp [ih, hx, List.filter_cons]

theorem allowAllResultsForSelf_ok {s : SurveyState} {sender : Address}
    {s2 : SurveyState} (h : allowAllResultsForSelf s sender = .ok s2) :
    s.isConfigured = true ∧
    (∃ i, i < s.options.length ∧ s.optionHasVotes i = true) ∧
    (∀ j a, s2.grants j a = true ↔
      (s.grants j a = true ∨
        (a = sender ∧ j < s.options.length ∧ s.optionHasVotes j = true))) ∧
    s2.options = s.options ∧ s2.isConfigured = s.isConfigured ∧
    s2.isFinalized = s.isFinalized ∧ s2.hasVoted = s.hasVoted ∧
    s2.optionHasVotes = s.optionHasVotes ∧ s2.owner = s.owner ∧
    s2.surveyCreator = s.surveyCreator ∧ s2.surveyQuestion = s.surveyQuestion ∧
    s2.allowedThis = s.allowedThis ∧
    s2.events = s.events ++
      ((List.range s.options.length).filter (fun i => s.optionHasVotes i)).map
        (fun i => Event.SelfAccessGranted sender i) := by
  unfold allowAllResultsForSelf at h
  split at h
  · exact absurd h (by simp)
  · rename_i h1
    dsimp only [] at h
    split at h
    · exact absurd h (by simp)
    · rename_i h2
      have hs2 : s2 = ((List.range s.options.length).foldl
          (grantAllStep sender s.optionHasVotes) (s, false)).1 :=
        ((Except.ok.injEq _ _).mp h).symm
      have hany : ((List.range s.options.length).foldl
          (grantAllStep sender s.optionHasVotes) (s, false)).2 = true := by
        cases hres : ((List.range s.options.length).foldl
            (grantAllStep sender s.optionHasVotes) (s, false)).2
        · exact absurd hres h2
        · rfl
      rw [grantAll_foldl_snd] at hany
      simp only [Bool.false_or, List.any_eq_true, List.mem_range] at hany
      obtain ⟨i, hi, hvi⟩ := hany
      have hfields := grantAll_foldl_fields sender s.optionHasVotes
        (List.range s.options.length) s false
      refine ⟨by simpa using h1, ⟨i, hi, hvi⟩, ?_, ?_⟩
      · intro j a
        rw [hs2, grantAll_foldl_grants]
        simp [List.mem_range]
      · rw [hs2]
        refine ⟨hfields.1, hfields.2.1, hfields.2.2.1, hfields.2.2.2.1,
          hfields.2.2.2.2.1, hfields.2.2.2.2.2.1, hfields.2.2.2.2.2.2.1,
          hfields.2.2.2.2.2.2.2.1, hfields.2.2.2.2.2.2.2.2, ?_⟩
        exact grantAll_foldl_events sender s.optionHasVotes _ s false

theorem allowAllResultsForSelf_no_votes (s : SurveyState) (sender : Address)
    (hnone : ∀ i, i < s.options.length → s.optionHasVotes i = false) :
    allowAllResultsForSelf s sender = .error .SurveyNotConfigured := by
  unfold allowAllResultsForSelf
  split
  · rfl
  · have hany : ((List.range s.options.length).foldl
        (grantAllStep sender s.optionHasVotes) (s, false)).2 = false := by
      rw [grantAll_foldl_snd]
      simp only [Bool.false_or, List.any_eq_false, List.mem_range]
      intro i hi
      simp [hnone i hi]
    simp only [hany]
    rfl

theorem initState_inv (owner : Address) : Inv (initState owner) := by
  refine ⟨?_, ?_, ?_⟩ <;> simp [initState]

theorem stepResult_ok_inv {s s2 : SurveyState} {op : Op}
    (hInv : Inv s) (h : stepResult s op = .ok s2) : Inv s2 := by
  obtain ⟨hlen, hfc, hvc⟩ := hInv
  cases op with
  | configure sender q labels =>
    obtain ⟨h1, h2, rfl⟩ := configureSurvey_ok h
    refine ⟨?_, ?_, ?_⟩
    · intro _; simpa using h2
    · intro hf; simp at hf
    · intro i _; rfl
  | submit sender idx ev p =>
    obtain ⟨hc, hf, hv, hi, hp, rfl⟩ := submitVote_ok h
    refine ⟨?_, ?_, ?_⟩
    · intro _; simpa [List.length_set] using hlen hc
    · intro _; simpa using hc
    · intro i _; simpa using hc
  | finalize sender =>
    obtain ⟨hc, hf, rfl⟩ := finalizeSurvey_ok h
    exact ⟨fun _ => hlen hc, fun _ => hc, fun i _ => hc⟩
  | grantFor sender grantee idx =>
    obtain ⟨hc, hi, hv, rfl⟩ := @allowResultFor_ok s sender grantee idx s2 h
    exact ⟨fun _ => hlen hc, fun hfin => hfc hfin, fun i hvi => hvc i hvi⟩
  | grantSelf sender idx =>
    obtain ⟨hc, hi, hv, rfl⟩ := allowResultForSelf_ok h
    exact ⟨fun _ => hlen hc, fun hfin => hfc hfin, fun i hvi => hvc i hvi⟩
  | grantAllSelf sender =>
    obtain ⟨hc, _, _, hopts, hcfg, hfin, _, hhv, _, _, _, _, _⟩ :=
      allowAllResultsForSelf_ok h
    refine ⟨?_, ?_, ?_⟩
    · intro _; rw [hopts]; exact hlen hc
    · intro h2; rw [hcfg]; exact hfc (hfin ▸ h2)
    · intro i h2; rw [hcfg]; exact hvc i (by rw [← hhv]; exact h2)

theorem applyOp_inv {s : SurveyState} (op : Op) (hInv : Inv s) :
    Inv (applyOp s op) := by
  unfold applyOp
  cases hstep : stepResult s op with
  | ok s2 => exact stepResult_ok_inv hInv hstep
  | error e => exact hInv

theorem runOps_inv {s : SurveyState} (ops : List Op) (hInv : Inv s) :
    Inv (runOps s ops) := by
  induction ops generalizing s with
  | nil => exact hInv
  | cons op ops ih => exact ih (applyOp_inv op hInv)

theorem reachable_inv {owner : Address} {s : SurveyState}
    (h : Reachable owner s) : Inv s := by
  obtain ⟨ops, rfl⟩ := h
  exact runOps_inv ops (initState_inv owner)

theorem stepResult_ok_mono {s s2 : SurveyState} {op : Op}
    (h : stepResult s op = .ok s2) :
    (s.isConfigured = true → s2.isConfigured = true) ∧
    (∀ a, s.hasVoted a = true → s2.hasVoted a = true) ∧
    (∀ i, s.optionHasVotes i = true → s2.optionHasVotes i = true) ∧
    (s.isFinalized = true → s.isConfigured = true → s2.isFinalized = true) := by
  cases op with
  | configure sender q labels =>
    obtain ⟨h1, h2, rfl⟩ := configureSurvey_ok h
    refine ⟨fun _ => rfl, fun a ha => ha, fun i hi => hi, fun hf hc => ?_⟩
    rw [hc] at h1; cases h1
  | submit sender idx ev p =>
    obtain ⟨hc, hf, hv, hi, hp, rfl⟩ := submitVote_ok h
    refine ⟨fun h2 => h2, fun a ha => ?_, fun i h2 => ?_, fun hf2 _ => hf2⟩
    · by_cases hax : a = sender <;> simp [hax, ha]
    · by_cases hix : i = idx <;> simp [hix, h2]
  | finalize sender =>
    obtain ⟨hc, hf, rfl⟩ := finalizeSurvey_ok h
    exact ⟨fun h2 => h2, fun a ha => ha, fun i hi => hi, fun _ _ => rfl⟩
  | grantFor sender grantee idx =>
    obtain ⟨hc, hi, hv, rfl⟩ := @allowResultFor_ok s sender grantee idx s2 h
    exact ⟨fun h2 => h2, fun a ha => ha, fun i hi => hi, fun hf _ => hf⟩
  | grantSelf sender idx =>
    obtain ⟨hc, hi, hv, rfl⟩ := allowResultForSelf_ok h
    exact ⟨fun h2 => h2, fun a ha => ha, fun i hi => hi, fun hf _ => hf⟩
  | grantAllSelf sender =>
    obtain ⟨hc, _, _, hopts, hcfg, hfin, hhv2, hhv, _, _, _, _, _⟩ :=
      allowAllResultsForSelf_ok h
    exact ⟨fun h2 => by rw [hcfg]; exact h2,
      fun a ha => by rw [hhv2]; exact ha,
      fun i hi => by rw [hhv]; exact hi,
      fun hf _ => by rw [hfin]; exact hf⟩

theorem applyOp_mono (s : SurveyState) (op : Op) :
    (s.isConfigured = true → (applyOp s op).isConfigured = true) ∧
    (∀ a, s.hasVoted a = true → (applyOp s op).hasVoted a = true) ∧
    (∀ i, s.optionHasVotes i = true → (applyOp s op).optionHasVotes i = true) ∧
    (s.isFinalized = true → s.isConfigured = true →
      (applyOp s op).isFinalized = true) := by
  unfold applyOp
  cases hstep : stepResult s op with
  | ok s2 => exact stepResult_ok_mono hstep
  | error e => exact ⟨fun h => h, fun _ h => h, fun _ h => h, fun h _ => h⟩

theorem runOps_mono (ops : List Op) :
    ∀ s : SurveyState,
      (s.isConfigured = true → (runOps s ops).isConfigured = true) ∧
      (∀ a, s.hasVoted a = true → (runOps s ops).hasVoted a = true) ∧
      (∀ i, s.optionHasVotes i = true → (runOps s ops).optionHasVotes i = true) ∧
      (s.isFinalized = true → s.isConfigured = true →
        (runOps s ops).isFinalized = true) := by
  induction ops with
  | nil => intro s; exact ⟨id, fun _ => id, fun _ => id, fun h _ => h⟩
  | cons op ops ih =>
    intro s
    have hstep := applyOp_mono s op
    have htail := ih (applyOp s op)
    exact ⟨fun hc => htail.1 (hstep.1 hc),
      fun a ha => htail.2.1 a (hstep.2.1 a ha),
      fun i hi => htail.2.2.1 i (hstep.2.2.1 i hi),
      fun hf hc => htail.2.2.2 (hstep.2.2.2 hf hc) (hstep.1 hc)⟩

theorem applyOp_of_ok {s s2 : SurveyState} {op : Op}
    (h : stepResult s op = .ok s2) : applyOp s op = s2 := by
  unfold applyOp
  rw [h]

theorem getD_map_label :
    ∀ (labels : List String) (i : Nat), i < labels.length →
      ((labels.map (fun l => ({ label := l, encryptedTotal := 0 } : SurveyOption))).getD
          i dummyOption).label = labels.getD i "" := by
  intro labels
  induction labels with
  | nil => intro i h; simp at h
  | cons hd tl ih =>
    intro i h
    cases i with
    | zero => rfl
    | succ n =>
      have : n < tl.length := by simpa using h
      simpa [List.getD] using ih n this

/-- C1: in every state in which the survey is configured, not finalized,
the caller has no accepted vote, the option index is in range and the
proof validates, submitVote succeeds and atomically adds the vote
increment homomorphically to the chosen option total, sets the hasVotes
flag of that option, records the caller as having voted, and grants
decrypt access on the updated accumulator to the owner and, when the
creator is set, to the creator. -/
theorem C1_submitVote_accepted (s : SurveyState) (sender : Address)
    (idx ev : Nat)
    (hc : s.isConfigured = true) (hf : s.isFinalized = false)
    (hv : s.hasVoted sender = false) (hi : idx < s.options.length) :
    ∃ s2, submitVote s sender idx ev true = .ok s2 ∧
      (s2.options.getD idx dummyOption).encryptedTotal
        = fheAdd (s.options.getD idx dummyOption).encryptedTotal (ev % UINT32_MOD) ∧
      s2.optionHasVotes idx = true ∧
      s2.hasVoted sender = true ∧
      s2.grants idx s.owner = true ∧
      (s.surveyCreator ≠ addressZero → s2.grants idx s.surveyCreator = true) := by
  have hnot : ¬ idx ≥ s.options.length := Nat.not_le.mpr hi
  have hex : ∃ s2, submitVote s sender idx ev true = .ok s2 := by
    unfold submitVote
    rw [hc, hf, hv]
    simp [hnot]
  obtain ⟨s2, hok⟩ := hex
  obtain ⟨_, _, _, _, _, rfl⟩ := submitVote_ok hok
  refine ⟨_, hok, ?_, by simp, by simp, by simp, ?_⟩
  · dsimp only []
    rw [getD_set_self _ _ _ _ hi]
  · intro hcr
    simp [hcr]

/-- C1 witness: concrete accepted vote by identity 2 for option 0 in the
two-option fixture survey. -/
theorem C1_submitVote_accepted_witness :
    votedState.optionHasVotes 0 = true ∧ votedState.hasVoted 2 = true ∧
    votedState.grants 0 100 = true ∧ votedState.grants 0 7 = true ∧
    (votedState.options.getD 0 dummyOption).encryptedTotal = 1 := by
  obtain ⟨s2, hok, htot, hhv, hvoted, hgo, hgc⟩ :=
    C1_submitVote_accepted cfgState 2 0 1 rfl rfl rfl (by decide)
  have hs2 : votedState = s2 :=
    @applyOp_of_ok cfgState s2 (.submit 2 0 1 true) hok
  refine ⟨by rw [hs2]; exact hhv, by rw [hs2]; exact hvoted,
    by rw [hs2]; exact hgo, by rw [hs2]; exact hgc (by decide), ?_⟩
  rw [hs2, htot]
  rfl

/-- C10: frame of an accepted vote: every other option keeps its label,
encrypted total and hasVotes flag, every other identity keeps its voter
record, and the question, configured and finalized fields are unchanged. -/
theorem C10_submitVote_frame (s : SurveyState) (sender : Address)
    (idx ev : Nat) (p : Bool) (s2 : SurveyState)
    (h : submitVote s sender idx ev p = .ok s2) :
    (∀ j, j ≠ idx →
      (s2.options.getD j dummyOption).label
        = (s.options.getD j dummyOption).label ∧
      (s2.options.getD j dummyOption).encryptedTotal
        = (s.options.getD j dummyOption).encryptedTotal ∧
      s2.optionHasVotes j = s.optionHasVotes j) ∧
    (∀ a, a ≠ sender → s2.hasVoted a = s.hasVoted a) ∧
    s2.surveyQuestion = s.surveyQuestion ∧
    s2.isConfigured = s.isConfigured ∧
    s2.isFinalized = s.isFinalized := by
  obtain ⟨hc, hf, hv, hi, hp, rfl⟩ := submitVote_ok h
  refine ⟨?_, ?_, rfl, rfl, rfl⟩
  · intro j hj
    dsimp only []
    rw [getD_set_ne _ _ _ _ _ hj]
    exact ⟨rfl, rfl, by simp [hj]⟩
  · intro a ha
    simp [ha]

/-- C10 witness: in the fixture vote by identity 2 for option 0, option 1
and identity 5 and the finalization flag are untouched. -/
theorem C10_submitVote_frame_witness :
    (votedState.options.getD 1 dummyOption).label
      = (cfgState.options.getD 1 dummyOption).label ∧
    votedState.hasVoted 5 = cfgState.hasVoted 5 ∧
    votedState.isFinalized = cfgState.isFinalized := by
  have h := C10_submitVote_frame cfgState 2 0 1 true votedState rfl
  exact ⟨(h.1 1 (by decide)).1, h.2.1 5 (by decide), h.2.2.2.2⟩

/-- C2 as stated is refuted by the code: after an accepted vote by
identity 2 and a finalization, the repeat vote by identity 2 fails with
SurveyClosed, not AlreadyVoted, because the finalization check precedes
the already-voted check. -/
theorem C2_counterexample :
    finState.hasVoted 2 = true ∧
    submitVote finState 2 1 1 true = .error .SurveyClosed ∧
    submitVote finState 2 1 1 true ≠ .error .AlreadyVoted := by
  have h2 : submitVote finState 2 1 1 true = .error .SurveyClosed := rfl
  refine ⟨rfl, h2, ?_⟩
  rw [h2]
  simp

/-- C2 (amended): after an accepted vote by identity i, every subsequent
submitVote by i fails, whatever option it chooses and whatever other
operations run in between: with AlreadyVoted whenever the survey is not
finalized at the time of the repeat call, and with SurveyClosed when it
has been finalized. -/
theorem C2_repeat_vote_rejected (s : SurveyState) (i : Address)
    (hv : s.hasVoted i = true) (hc : s.isConfigured = true)
    (ops : List Op) (idx ev : Nat) (p : Bool) :
    ((runOps s ops).isFinalized = false →
      submitVote (runOps s ops) i idx ev p = .error .AlreadyVoted) ∧
    ((runOps s ops).isFinalized = true →
      submitVote (runOps s ops) i idx ev p = .error .SurveyClosed) := by
  have hm := runOps_mono ops s
  have hc2 : (runOps s ops).isConfigured = true := hm.1 hc
  have hv2 : (runOps s ops).hasVoted i = true := hm.2.1 i hv
  constructor
  · intro hf
    unfold submitVote
    rw [hc2, hf, hv2]
    simp
  · intro hf
    unfold submitVote
    rw [hc2, hf]
    simp

/-- C2 witness: identity 2 voted in the fixture; an immediate repeat vote
fails with AlreadyVoted, and a repeat vote after finalization fails with
SurveyClosed. -/
theorem C2_repeat_vote_rejected_witness :
    submitVote votedState 2 1 1 true = .error .AlreadyVoted ∧
    submitVote (runOps votedState [.finalize 3]) 2 0 1 true
      = .error .SurveyClosed := by
  have h1 := C2_repeat_vote_rejected votedState 2 rfl rfl [] 1 1 true
  have h2 := C2_repeat_vote_rejected votedState 2 rfl rfl [.finalize 3] 0 1 true
  exact ⟨h1.1 rfl, h2.2 rfl⟩

/-- C3: configureSurvey succeeds at most once: in the unconfigured state
it fails with InvalidOption on fewer than two labels and leaves the state
unchanged; with at least two labels it succeeds, records the question and
creator, creates one option per label with hasVotes false, and marks the
survey configured; after a successful configuration every further call,
whatever happens in between, fails with SurveyClosed. -/
theorem C3_configure_exactly_once (owner : Address) (s : SurveyState)
    (hr : Reachable owner s) (sender : Address) (q : String)
    (labels : List String) :
    (s.isConfigured = false → labels.length < 2 →
      configureSurvey s sender q labels = .error .InvalidOption ∧
      applyOp s (.configure sender q labels) = s) ∧
    (s.isConfigured = false → 2 ≤ labels.length →
      ∃ s2, configureSurvey s sender q labels = .ok s2 ∧
        s2.surveyQuestion = q ∧ s2.surveyCreator = sender ∧
        s2.options.length = labels.length ∧
        (∀ i, i < labels.length →
          (s2.options.getD i dummyOption).label = labels.getD i "" ∧
          s2.optionHasVotes i = false) ∧
        s2.isConfigured = true ∧
        (∀ ops sender2 q2 labels2,
          configureSurvey (runOps s2 ops) sender2 q2 labels2
            = .error .SurveyClosed)) ∧
    (s.isConfigured = true → ∀ ops sender2 q2 labels2,
      configureSurvey (runOps s ops) sender2 q2 labels2
        = .error .SurveyClosed) := by
  refine ⟨?_, ?_, ?_⟩
  · intro hc hlen
    have herr : configureSurvey s sender q labels = .error .InvalidOption := by
      unfold configureSurvey
      rw [hc]
      simp [hlen]
    refine ⟨herr, ?_⟩
    unfold applyOp stepResult
    dsimp only []
    rw [herr]
  · intro hc hlen
    have hok : ∃ s2, configureSurvey s sender q labels = .ok s2 := by
      unfold configureSurvey
      rw [hc]
      simp [Nat.not_lt.mpr hlen]
    obtain ⟨s2, hok⟩ := hok
    obtain ⟨_, _, rfl⟩ := configureSurvey_ok hok
    refine ⟨_, hok, rfl, rfl, by simp, ?_, rfl, ?_⟩
    · intro i hi
      refine ⟨getD_map_label labels i hi, ?_⟩
      cases hvi : s.optionHasVotes i
      · rfl
      · have := (reachable_inv hr).2.2 i hvi
        rw [hc] at this
        cases this
    · intro ops sender2 q2 labels2
      have hc2 := (runOps_mono ops _).1 (rfl :
        ({ s with
            surveyQuestion := q
            surveyCreator := sender
            options := labels.map (fun l => { label := l, encryptedTotal := 0 })
            isConfigured := true
            isFinalized := false
            events := s.events ++ [.SurveyConfigured q labels] } :
          SurveyState).isConfigured = true)
      unfold configureSurvey
      rw [hc2]
      simp
  · intro hc ops sender2 q2 labels2
    have hc2 : (runOps s ops).isConfigured = true := (runOps_mono ops s).1 hc
    unfold configureSurvey
    rw [hc2]
    simp

/-- C3 witness: on a fresh deployment a one-label call fails with
InvalidOption, a two-label call configures the survey, and a later call on
the configured fixture fails with SurveyClosed. -/
theorem C3_configure_exactly_once_witness :
    configureSurvey (initState 100) 5 "Q2" ["X"] = .error .InvalidOption ∧
    (applyOp (initState 100) (.configure 7 "Q" ["A", "B"])).isConfigured
      = true ∧
    configureSurvey (runOps cfgState []) 9 "R" ["C", "D"]
      = .error .SurveyClosed := by
  have h1 := C3_configure_exactly_once 100 (initState 100) ⟨[], rfl⟩ 5 "Q2" ["X"]
  have h2 := C3_configure_exactly_once 100 (initState 100) ⟨[], rfl⟩ 7 "Q" ["A", "B"]
  have h3 := C3_configure_exactly_once 100 cfgState
    ⟨[.configure 7 "Q" ["A", "B"]], rfl⟩ 9 "R" ["C", "D"]
  refine ⟨(h1.1 rfl (by decide)).1, ?_, h3.2.2 rfl [] 9 "R" ["C", "D"]⟩
  obtain ⟨s2, hok, _, _, _, _, hcfg, _⟩ := h2.2.1 rfl (by decide)
  rw [@applyOp_of_ok (initState 100) s2 (.configure 7 "Q" ["A", "B"]) hok]
  exact hcfg

/-- C4: finalizeSurvey fails with SurveyNotConfigured when unconfigured
and with SurveyClosed when already finalized; on success it only sets the
finalized flag (plus its audit event): afterwards every submitVote fails
with SurveyClosed while getEncryptedTotal on a valid index still succeeds
with the pre-finalization accumulator, and the grant operations remain
available. -/
theorem C4_finalize_only_closes (s : SurveyState) (sender : Address) :
    (s.isConfigured = false →
      finalizeSurvey s sender = .error .SurveyNotConfigured) ∧
    (s.isConfigured = true → s.isFinalized = true →
      finalizeSurvey s sender = .error .SurveyClosed) ∧
    (s.isConfigured = true → s.isFinalized = false →
      ∃ s2, finalizeSurvey s sender = .ok s2 ∧
        s2.isFinalized = true ∧
        s2.isConfigured = s.isConfigured ∧ s2.options = s.options ∧
        s2.hasVoted = s.hasVoted ∧ s2.optionHasVotes = s.optionHasVotes ∧
        s2.grants = s.grants ∧ s2.surveyQuestion = s.surveyQuestion ∧
        s2.surveyCreator = s.surveyCreator ∧ s2.owner = s.owner ∧
        s2.allowedThis = s.allowedThis ∧
        (∀ v idx ev p, submitVote s2 v idx ev p = .error .SurveyClosed) ∧
        (∀ idx, idx < s.options.length →
          getEncryptedTotal s2 idx = getEncryptedTotal s idx ∧
          ∃ t, getEncryptedTotal s2 idx = .ok t) ∧
        (∀ caller grantee idx, idx < s.options.length →
          s.optionHasVotes idx = true →
          (∃ s3, allowResultFor s2 caller grantee idx = .ok s3) ∧
          (∃ s3, allowResultForSelf s2 caller idx = .ok s3))) := by
  refine ⟨?_, ?_, ?_⟩
  · intro hc
    unfold finalizeSurvey
    rw [hc]
    simp
  · intro hc hf
    unfold finalizeSurvey
    rw [hc, hf]
    simp
  · intro hc hf
    have hok : ∃ s2, finalizeSurvey s sender = .ok s2 := by
      unfold finalizeSurvey
      rw [hc, hf]
      simp
    obtain ⟨s2, hok⟩ := hok
    obtain ⟨_, _, rfl⟩ := finalizeSurvey_ok hok
    refine ⟨_, hok, rfl, rfl, rfl, rfl, rfl, rfl, rfl, rfl, rfl, rfl,
      ?_, ?_, ?_⟩
    · intro v idx ev p
      simp [submitVote, hc]
    · intro idx hidx
      have hnot : ¬ idx ≥ s.options.length := Nat.not_le.mpr hidx
      constructor
      · simp [getEncryptedTotal, hc, hnot]
      · simp [getEncryptedTotal, hc, hnot]
    · intro caller grantee idx hidx hvotes
      have hnot : ¬ idx ≥ s.options.length := Nat.not_le.mpr hidx
      constructor
      · simp [allowResultFor, hc, hvotes, hnot]
      · simp [allowResultForSelf, hc, hvotes, hnot]

/-- C4 witness: finalize fails on the fresh deployment and on the
finalized fixture, succeeds on the voted fixture, and afterwards a vote is
rejected with SurveyClosed while the encrypted total of option 0 is still
readable and unchanged. -/
theorem C4_finalize_only_closes_witness :
    finalizeSurvey (initState 100) 3 = .error .SurveyNotConfigured ∧
    finalizeSurvey finState 3 = .error .SurveyClosed ∧
    finState.isFinalized = true ∧
    submitVote finState 9 0 1 true = .error .SurveyClosed ∧
    getEncryptedTotal finState 0 = getEncryptedTotal votedState 0 := by
  have h1 := C4_finalize_only_closes (initState 100) 3
  have h2 := C4_finalize_only_closes finState 3
  have h3 := C4_finalize_only_closes votedState 3
  obtain ⟨s2, hok, hfin, _, _, _, _, _, _, _, _, _, hvote, hget, _⟩ :=
    h3.2.2 rfl rfl
  have hs2 : finState = s2 := @applyOp_of_ok votedState s2 (.finalize 3) hok
  refine ⟨h1.1 rfl, h2.2.1 rfl rfl, ?_, ?_, ?_⟩
  · rw [hs2]; exact hfin
  · rw [hs2]; exact hvote 9 0 1 true
  · rw [hs2]; exact (hget 0 (by decide)).1

/-- C5: with the survey configured, allowResultFor and allowResultForSelf
fail with InvalidOption on every out-of-range index, fail with
SurveyNotConfigured on every in-range option without votes, and succeed on
every in-range option with votes; repeating the same grant for the same
identity succeeds again and changes no storage beyond the already-present
grant. -/
theorem C5_grant_preconditions (s : SurveyState) (caller grantee : Address)
    (idx : Nat) (hc : s.isConfigured = true) :
    (idx ≥ s.options.length →
      allowResultFor s caller grantee idx = .error .InvalidOption ∧
      allowResultForSelf s caller idx = .error .InvalidOption) ∧
    (idx < s.options.length → s.optionHasVotes idx = false →
      allowResultFor s caller grantee idx = .error .SurveyNotConfigured ∧
      allowResultForSelf s caller idx = .error .SurveyNotConfigured) ∧
    (idx < s.options.length → s.optionHasVotes idx = true →
      ∃ s2, allowResultFor s caller grantee idx = .ok s2 ∧
        s2.grants idx grantee = true ∧
        ∃ s3, allowResultFor s2 caller grantee idx = .ok s3 ∧
          s3.grants = s2.grants ∧ s3.options = s2.options ∧
          s3.optionHasVotes = s2.optionHasVotes ∧ s3.hasVoted = s2.hasVoted ∧
          s3.isConfigured = s2.isConfigured ∧
          s3.isFinalized = s2.isFinalized) ∧
    (idx < s.options.length → s.optionHasVotes idx = true →
      ∃ s2, allowResultForSelf s caller idx = .ok s2 ∧
        s2.grants idx caller = true ∧
        ∃ s3, allowResultForSelf s2 caller idx = .ok s3 ∧
          s3.grants = s2.grants ∧ s3.options = s2.options ∧
          s3.optionHasVotes = s2.optionHasVotes ∧ s3.hasVoted = s2.hasVoted ∧
          s3.isConfigured = s2.isConfigured ∧
          s3.isFinalized = s2.isFinalized) := by
  refine ⟨?_, ?_, ?_, ?_⟩
  · intro hge
    constructor
    · unfold allowResultFor
      rw [hc]
      simp [hge]
    · unfold allowResultForSelf
      rw [hc]
      simp [hge]
  · intro hlt hnv
    have hnot : ¬ idx ≥ s.options.length := Nat.not_le.mpr hlt
    constructor
    · unfold allowResultFor
      rw [hc, hnv]
      simp [hnot]
    · unfold allowResultForSelf
      rw [hc, hnv]
      simp [hnot]
  · intro hlt hvotes
    have hnot : ¬ idx ≥ s.options.length := Nat.not_le.mpr hlt
    have hok : ∃ s2, allowResultFor s caller grantee idx = .ok s2 := by
      unfold allowResultFor
      rw [hc, hvotes]
      simp [hnot]
    obtain ⟨s2, hok⟩ := hok
    obtain ⟨_, _, _, rfl⟩ := @allowResultFor_ok s caller grantee idx s2 hok
    have hgr : (fun i a => if i = idx ∧ a = grantee then true else s.grants i a)
        idx grantee = true := by simp
    refine ⟨_, hok, hgr, ?_⟩
    have hok2 : ∃ s3, allowResultFor
        { s with
          grants := fun i a => if i = idx ∧ a = grantee then true else s.grants i a
          events := s.events ++ [.ResultAccessGranted grantee idx] }
        caller grantee idx = .ok s3 := by
      simp [allowResultFor, hc, hvotes, hnot]
    obtain ⟨s3, hok2⟩ := hok2
    obtain ⟨_, _, _, rfl⟩ := @allowResultFor_ok _ caller grantee idx s3 hok2
    refine ⟨_, hok2, ?_, rfl, rfl, rfl, rfl, rfl⟩
    funext i a
    by_cases hia : i = idx ∧ a = grantee
    · simp [hia]
    · simp [hia]
  · intro hlt hvotes
    have hnot : ¬ idx ≥ s.options.length := Nat.not_le.mpr hlt
    have hok : ∃ s2, allowResultForSelf s caller idx = .ok s2 := by
      unfold allowResultForSelf
      rw [hc, hvotes]
      simp [hnot]
    obtain ⟨s2, hok⟩ := hok
    obtain ⟨_, _, _, rfl⟩ := allowResultForSelf_ok hok
    have hgr : (fun i a => if i = idx ∧ a = caller then true else s.grants i a)
        idx caller = true := by simp
    refine ⟨_, hok, hgr, ?_⟩
    have hok2 : ∃ s3, allowResultForSelf
        { s with
          grants := fun i a => if i = idx ∧ a = caller then true else s.grants i a
          events := s.events ++ [.SelfAccessGranted caller idx] }
        caller idx = .ok s3 := by
      simp [allowResultForSelf, hc, hvotes, hnot]
    obtain ⟨s3, hok2⟩ := hok2
    obtain ⟨_, _, _, rfl⟩ := allowResultForSelf_ok hok2
    refine ⟨_, hok2, ?_, rfl, rfl, rfl, rfl, rfl⟩
    funext i a
    by_cases hia : i = idx ∧ a = caller
    · simp [hia]
    · simp [hia]

/-- C5 witness: on the voted fixture, index 9 is rejected as invalid,
index 1 has no votes yet, and index 0 accepts a third-party grant. -/
theorem C5_grant_preconditions_witness :
    allowResultFor votedState 4 5 9 = .error .InvalidOption ∧
    allowResultFor votedState 4 5 1 = .error .SurveyNotConfigured ∧
    (applyOp votedState (.grantFor 4 5 0)).grants 0 5 = true := by
  have h := C5_grant_preconditions votedState 4 5 9 rfl
  have h2 := C5_grant_preconditions votedState 4 5 1 rfl
  have h3 := C5_grant_preconditions votedState 4 5 0 rfl
  refine ⟨(h.1 (by decide)).1, (h2.2.1 (by decide) rfl).1, ?_⟩
  obtain ⟨s2, hok, hgr, _⟩ := h3.2.2.1 (by decide) rfl
  rw [@applyOp_of_ok votedState s2 (.grantFor 4 5 0) hok]
  exact hgr

/-- C6: with the survey configured, allowAllResultsForSelf grants the
caller decrypt access on exactly the options with votes, emitting one
self-grant event per such option, and fails with SurveyNotConfigured if
and only if no option has votes, in which case nothing changes. -/
theorem C6_grantAll_exact_subset (s : SurveyState) (caller : Address)
    (hc : s.isConfigured = true) :
    ((∀ i, i < s.options.length → s.optionHasVotes i = false) →
      allowAllResultsForSelf s caller = .error .SurveyNotConfigured ∧
      applyOp s (.grantAllSelf caller) = s) ∧
    (∀ k, k < s.options.length → s.optionHasVotes k = true →
      ∃ s2, allowAllResultsForSelf s caller = .ok s2 ∧
        (∀ j a, s2.grants j a = true ↔
          (s.grants j a = true ∨
            (a = caller ∧ j < s.options.length ∧ s.optionHasVotes j = true))) ∧
        s2.events = s.events ++
          ((List.range s.options.length).filter (fun i => s.optionHasVotes i)).map
            (fun i => Event.SelfAccessGranted caller i)) := by
  constructor
  · intro hnone
    have herr := allowAllResultsForSelf_no_votes s caller hnone
    refine ⟨herr, ?_⟩
    unfold applyOp stepResult
    dsimp only []
    rw [herr]
  · intro k hk hvk
    have hany : ((List.range s.options.length).foldl
        (grantAllStep caller s.optionHasVotes) (s, false)).2 = true := by
      rw [grantAll_foldl_snd]
      simp only [Bool.false_or, List.any_eq_true, List.mem_range]
      exact ⟨k, hk, hvk⟩
    have hok : ∃ s2, allowAllResultsForSelf s caller = .ok s2 := by
      unfold allowAllResultsForSelf
      rw [hc]
      dsimp only []
      rw [hany]
      simp
    obtain ⟨s2, hok⟩ := hok
    obtain ⟨_, _, hgr, _, _, _, _, _, _, _, _, _, hev⟩ :=
      allowAllResultsForSelf_ok hok
    exact ⟨s2, hok, hgr, hev⟩

/-- C6 witness: on the configured fixture with no votes the call fails
with SurveyNotConfigured; on the voted fixture it succeeds and grants the
caller option 0. -/
theorem C6_grantAll_exact_subset_witness :
    allowAllResultsForSelf cfgState 8 = .error .SurveyNotConfigured ∧
    (applyOp votedState (.grantAllSelf 8)).grants 0 8 = true := by
  have h1 := C6_grantAll_exact_subset cfgState 8 rfl
  have h2 := C6_grantAll_exact_subset votedState 8 rfl
  refine ⟨(h1.1 (fun i _ => rfl)).1, ?_⟩
  obtain ⟨s2, hok, hgr, _⟩ := h2.2 0 (by decide) rfl
  rw [@applyOp_of_ok votedState s2 (.grantAllSelf 8) hok]
  exact (hgr 0 8).mpr (Or.inr ⟨rfl, by decide, rfl⟩)

/-- C7: every reachable state has at least two options when configured and
is configured when finalized, and every operation preserves these
invariants and the monotonicity of the configured flag, the finalized
flag, every voter record and every per-option hasVotes flag. -/
theorem C7_invariants (owner : Address) (s : SurveyState)
    (hr : Reachable owner s) :
    (s.isConfigured = true → 2 ≤ s.options.length) ∧
    (s.isFinalized = true → s.isConfigured = true) ∧
    (∀ op,
      ((applyOp s op).isConfigured = true →
        2 ≤ (applyOp s op).options.length) ∧
      ((applyOp s op).isFinalized = true →
        (applyOp s op).isConfigured = true) ∧
      (s.isConfigured = true → (applyOp s op).isConfigured = true) ∧
      (s.isFinalized = true → (applyOp s op).isFinalized = true) ∧
      (∀ a, s.hasVoted a = true → (applyOp s op).hasVoted a = true) ∧
      (∀ i, s.optionHasVotes i = true →
        (applyOp s op).optionHasVotes i = true)) := by
  have hInv := reachable_inv hr
  refine ⟨hInv.1, hInv.2.1, ?_⟩
  intro op
  have hInv2 := applyOp_inv op hInv
  have hm := applyOp_mono s op
  exact ⟨hInv2.1, hInv2.2.1, hm.1, fun hf => hm.2.2.2 hf (hInv.2.1 hf),
    hm.2.1, hm.2.2.1⟩

/-- C7 witness: the configured fixture has two options and a finalize step
keeps the voter record of identity 2. -/
theorem C7_invariants_witness :
    2 ≤ cfgState.options.length ∧
    (applyOp votedState (.finalize 1)).hasVoted 2 = true := by
  have h1 := C7_invariants 100 cfgState ⟨[.configure 7 "Q" ["A", "B"]], rfl⟩
  have h2 := C7_invariants 100 votedState
    ⟨[.configure 7 "Q" ["A", "B"], .submit 2 0 1 true], rfl⟩
  exact ⟨h1.1 rfl, (h2.2.2 (.finalize 1)).2.2.2.2.1 2 rfl⟩

/-- C8: hasVoterSubmitted never reverts and has no precondition: in every
state it returns the stored voter record, which is false on a fresh
deployment and becomes true after a step exactly when that step is an
accepted submitVote by the queried identity. -/
theorem C8_hasVoterSubmitted_total (v : Address) :
    (∀ s, hasVoterSubmitted s v = s.hasVoted v) ∧
    (∀ owner, hasVoterSubmitted (initState owner) v = false) ∧
    (∀ s op, hasVoterSubmitted (applyOp s op) v = true ↔
      (hasVoterSubmitted s v = true ∨
        ∃ idx ev p s2, op = Op.submit v idx ev p ∧
          stepResult s op = .ok s2)) := by
  refine ⟨fun s => rfl, fun owner => rfl, ?_⟩
  intro s op
  constructor
  · intro h
    unfold hasVoterSubmitted applyOp at h
    cases hstep : stepResult s op with
    | error e =>
      rw [hstep] at h
      exact Or.inl h
    | ok s2 =>
      rw [hstep] at h
      cases op with
      | configure sender q labels =>
        obtain ⟨_, _, rfl⟩ := configureSurvey_ok hstep
        exact Or.inl h
      | submit sender idx ev p =>
        obtain ⟨_, _, _, _, _, rfl⟩ := submitVote_ok hstep
        by_cases hvs : v = sender
        · subst hvs
          exact Or.inr ⟨idx, ev, p, _, rfl, rfl⟩
        · left
          simpa [hvs] using h
      | finalize sender =>
        obtain ⟨_, _, rfl⟩ := finalizeSurvey_ok hstep
        exact Or.inl h
      | grantFor sender grantee idx =>
        obtain ⟨_, _, _, rfl⟩ := @allowResultFor_ok s sender grantee idx s2 hstep
        exact Or.inl h
      | grantSelf sender idx =>
        obtain ⟨_, _, _, rfl⟩ := allowResultForSelf_ok hstep
        exact Or.inl h
      | grantAllSelf sender =>
        obtain ⟨_, _, _, _, _, _, hhv, _⟩ := allowAllResultsForSelf_ok hstep
        rw [hhv] at h
        exact Or.inl h
  · rintro (h | ⟨idx, ev, p, s2, rfl, hok⟩)
    · exact (applyOp_mono s op).2.1 v h
    · rw [applyOp_of_ok hok]
      obtain ⟨_, _, _, _, _, rfl⟩ := submitVote_ok hok
      simp [hasVoterSubmitted]

/-- C9: the declared error NotOwner is unreachable: no state-changing
operation and no view of the contract ever reverts with it, in any state
and for any caller or input. -/
theorem C9_NotOwner_unreachable (s : SurveyState) (op : Op) (idx : Nat) :
    raisesNotOwner (stepResult s op) = false ∧
    raisesNotOwner (getEncryptedTotal s idx) = false ∧
    raisesNotOwner (getOptionLabels s) = false ∧
    raisesNotOwner (optionCount s) = false := by
  refine ⟨?_, ?_, ?_, ?_⟩
  · cases op with
    | configure sender q labels =>
      show raisesNotOwner (configureSurvey s sender q labels) = false
      unfold configureSurvey
      repeat' split
      all_goals rfl
    | submit sender idx2 ev p =>
      show raisesNotOwner (submitVote s sender idx2 ev p) = false
      unfold submitVote
      repeat' split
      all_goals rfl
    | finalize sender =>
      show raisesNotOwner (finalizeSurvey s sender) = false
      unfold finalizeSurvey
      repeat' split
      all_goals rfl
    | grantFor sender grantee idx2 =>
      show raisesNotOwner (allowResultFor s sender grantee idx2) = false
      unfold allowResultFor
      repeat' split
      all_goals rfl
    | grantSelf sender idx2 =>
      show raisesNotOwner (allowResultForSelf s sender idx2) = false
      unfold allowResultForSelf
      repeat' split
      all_goals rfl
    | grantAllSelf sender =>
      show raisesNotOwner (allowAllResultsForSelf s sender) = false
      unfold allowAllResultsForSelf
      dsimp only []
      repeat' split
      all_goals rfl
  · unfold getEncryptedTotal
    repeat' split
    all_goals rfl
  · unfold getOptionLabels
    repeat' split
    all_goals rfl
  · unfold optionCount
    repeat' split
    all_goals rfl

end EncryptedSurvey
